import Mathlib

/-
Verification of the newline-framed JSON message protocol layer of a minimal
blockchain node (files message.ts, utility.ts and the connection handler).
The TypeScript sources are shallowly embedded: JSON values become an inductive
type, JSON.parse and TextDecoder().decode become executable Lean functions,
and the per-connection read loop becomes a function from the bytes of one
read to the action the loop takes.
-/

namespace Marabu

/-- JSON values as produced by JSON.parse. Object fields keep insertion
order; duplicate keys are collapsed at parse time exactly as JavaScript
property assignment does (last value wins, first position kept). Numbers
are modelled as rationals, which represent every JSON numeric literal. -/
inductive Json where
  | null
  | bool (b : Bool)
  | num (q : Rat)
  | str (s : String)
  | arr (elems : List Json)
  | obj (fields : List (String × Json))

/-- Read an own property of a JS object (first matching key). -/
def objGet : List (String × Json) → String → Option Json
  | [], _ => none
  | (k, v) :: rest, key => if k = key then some v else objGet rest key

/-- JS property assignment on an object: an existing key keeps its position
and takes the new value, a new key is appended. -/
def objInsert : List (String × Json) → String → Json → List (String × Json)
  | [], k, v => [(k, v)]
  | (k0, v0) :: rest, k, v =>
      if k0 = k then (k0, v) :: rest else (k0, v0) :: objInsert rest k v

/-- Build a JS object from the member list read off the wire, collapsing
duplicate keys the way JSON.parse does. -/
def buildObj (kvs : List (String × Json)) : List (String × Json) :=
  kvs.foldl (fun acc kv => objInsert acc kv.1 kv.2) []

/-- The whitespace JSON.parse skips: space, tab, line feed, carriage return. -/
def isWs (c : Char) : Bool :=
  c = ' ' || c = '\t' || c = '\n' || c = '\r'

def skipWs : List Char → List Char
  | [] => []
  | c :: rest => if isWs c then skipWs rest else c :: rest

/-- The U+FFFD replacement character used by TextDecoder for bad input. -/
def repl : Char := Char.ofNat 0xFFFD

def hexVal (c : Char) : Option Nat :=
  if '0' ≤ c ∧ c ≤ '9' then some (c.toNat - 48)
  else if 'a' ≤ c ∧ c ≤ 'f' then some (c.toNat - 87)
  else if 'A' ≤ c ∧ c ≤ 'F' then some (c.toNat - 55)
  else none

def hex4 (a b c d : Char) : Option Nat :=
  match hexVal a, hexVal b, hexVal c, hexVal d with
  | some x, some y, some z, some w => some (((x * 16 + y) * 16 + z) * 16 + w)
  | _, _, _, _ => none

/-- Short escapes recognised inside a JSON string literal. -/
def escChar (c : Char) : Option Char :=
  if c = '"' then some '"'
  else if c = '\\' then some '\\'
  else if c = '/' then some '/'
  else if c = 'b' then some (Char.ofNat 8)
  else if c = 'f' then some (Char.ofNat 12)
  else if c = 'n' then some '\n'
  else if c = 'r' then some '\r'
  else if c = 't' then some '\t'
  else none

/-- Body of a JSON string after the opening quote: returns the decoded
characters and the input remaining after the closing quote. Surrogate
escape pairs are combined; a lone surrogate, not representable as a
unicode scalar, becomes U+FFFD. Raw control characters are rejected,
as JSON.parse rejects them. -/
def parseStringBody : List Char → Option (List Char × List Char)
  | [] => none
  | c :: rest =>
    if c = '"' then some ([], rest)
    else if c = '\\' then
      match rest with
      | [] => none
      | e :: rest2 =>
        if e = 'u' then
          match rest2 with
          | a :: b :: c2 :: d :: rest3 =>
            match hex4 a b c2 d with
            | none => none
            | some n =>
              if 0xD800 ≤ n ∧ n ≤ 0xDBFF then
                match rest3 with
                | '\\' :: 'u' :: a2 :: b2 :: c3 :: d2 :: rest4 =>
                  (match hex4 a2 b2 c3 d2 with
                   | some m =>
                     if 0xDC00 ≤ m ∧ m ≤ 0xDFFF then
                       (parseStringBody rest4).map (fun p =>
                         (Char.ofNat (0x10000 + (n - 0xD800) * 0x400 + (m - 0xDC00)) :: p.1, p.2))
                     else if 0xD800 ≤ m then
                       (parseStringBody rest4).map (fun p => (repl :: repl :: p.1, p.2))
                     else
                       (parseStringBody rest4).map (fun p => (repl :: Char.ofNat m :: p.1, p.2))
                   | none => none)
                | rest3 => (parseStringBody rest3).map (fun p => (repl :: p.1, p.2))
              else if 0xDC00 ≤ n ∧ n ≤ 0xDFFF then
                (parseStringBody rest3).map (fun p => (repl :: p.1, p.2))
              else
                (parseStringBody rest3).map (fun p => (Char.ofNat n :: p.1, p.2))
          | _ => none
        else
          match escChar e with
          | some ec => (parseStringBody rest2).map (fun p => (ec :: p.1, p.2))
          | none => none
    else if c.toNat < 0x20 then none
    else (parseStringBody rest).map (fun p => (c :: p.1, p.2))

def takeDigits : List Char → List Char × List Char
  | [] => ([], [])
  | c :: rest =>
    if c.isDigit then
      let p := takeDigits rest
      (c :: p.1, p.2)
    else ([], c :: rest)

def natOfDigits (ds : List Char) : Nat :=
  ds.foldl (fun a c => a * 10 + (c.toNat - 48)) 0

/-- Optional exponent part of a JSON number; yields 0 when absent. -/
def parseExpPart : List Char → Option (Int × List Char)
  | 'e' :: rest | 'E' :: rest =>
    (fun p : Int × List Char =>
      match takeDigits p.2 with
      | ([], _) => none
      | (ds, r) => some (p.1 * (natOfDigits ds : Int), r))
    (match rest with
     | '+' :: r => ((1 : Int), r)
     | '-' :: r => ((-1 : Int), r)
     | _ => ((1 : Int), rest))
  | cs => some (0, cs)

/-- Optional fraction part: digit value, digit count, remaining input. -/
def parseFracPart : List Char → Option (Nat × Nat × List Char)
  | '.' :: rest =>
    (match takeDigits rest with
     | ([], _) => none
     | (ds, r) => some (natOfDigits ds, ds.length, r))
  | cs => some (0, 0, cs)

/-- A JSON number literal, following the JSON grammar (optional minus,
no leading zeros, optional fraction and exponent), as an exact rational. -/
def parseNumber (cs : List Char) : Option (Rat × List Char) :=
  let sp : Bool × List Char :=
    match cs with
    | '-' :: r => (true, r)
    | _ => (false, cs)
  match takeDigits sp.2 with
  | ([], _) => none
  | (ds, cs2) =>
    if 1 < ds.length ∧ ds.head? = some '0' then none
    else
      match parseFracPart cs2 with
      | none => none
      | some (fv, fl, cs3) =>
        match parseExpPart cs3 with
        | none => none
        | some (e, cs4) =>
          let mant : Int := (natOfDigits ds * 10 ^ fl + fv : Nat)
          let mant : Int := if sp.1 then -mant else mant
          let q : Rat :=
            if 0 ≤ e then mkRat (mant * 10 ^ e.toNat) (10 ^ fl)
            else mkRat mant (10 ^ fl * 10 ^ (-e).toNat)
          some (q, cs4)

mutual

/-- One JSON value, fuel-bounded recursive descent mirroring JSON.parse. -/
def parseVal : Nat → List Char → Option (Json × List Char)
  | 0, _ => none
  | fuel + 1, cs =>
    match skipWs cs with
    | [] => none
    | '{' :: r =>
      (match skipWs r with
       | '}' :: r2 => some (Json.obj [], r2)
       | r2 => (parseMembers fuel r2).map (fun p => (Json.obj (buildObj p.1), p.2)))
    | '[' :: r =>
      (match skipWs r with
       | ']' :: r2 => some (Json.arr [], r2)
       | r2 => (parseItems fuel r2).map (fun p => (Json.arr p.1, p.2)))
    | '"' :: r => (parseStringBody r).map (fun p => (Json.str (String.mk p.1), p.2))
    | 't' :: 'r' :: 'u' :: 'e' :: r => some (Json.bool true, r)
    | 'f' :: 'a' :: 'l' :: 's' :: 'e' :: r => some (Json.bool false, r)
    | 'n' :: 'u' :: 'l' :: 'l' :: r => some (Json.null, r)
    | cs2 => (parseNumber cs2).map (fun p => (Json.num p.1, p.2))

/-- The members of a JSON object after the opening brace (nonempty case). -/
def parseMembers : Nat → List Char → Option (List (String × Json) × List Char)
  | 0, _ => none
  | fuel + 1, cs =>
    match skipWs cs with
    | '"' :: r =>
      (match parseStringBody r with
       | none => none
       | some (kChars, r2) =>
         match skipWs r2 with
         | ':' :: r3 =>
           (match parseVal fuel r3 with
            | none => none
            | some (v, r4) =>
              match skipWs r4 with
              | ',' :: r5 =>
                (parseMembers fuel r5).map (fun p => ((String.mk kChars, v) :: p.1, p.2))
              | '}' :: r5 => some ([(String.mk kChars, v)], r5)
              | _ => none)
         | _ => none)
    | _ => none

/-- The items of a JSON array after the opening bracket (nonempty case). -/
def parseItems : Nat → List Char → Option (List Json × List Char)
  | 0, _ => none
  | fuel + 1, cs =>
    match parseVal fuel cs with
    | none => none
    | some (v, r) =>
      match skipWs r with
      | ',' :: r2 => (parseItems fuel r2).map (fun p => (v :: p.1, p.2))
      | ']' :: r2 => some ([v], r2)
      | _ => none

end

/-- JSON.parse: parse a whole string as one JSON value, allowing leading
and trailing whitespace and rejecting trailing garbage. The fuel bound
exceeds any possible nesting of the input. -/
def jsonParse (s : String) : Option Json :=
  match parseVal (2 * s.length + 2) s.data with
  | some (v, rest) => if skipWs rest = [] then some v else none
  | none => none

/-- A UTF-8 continuation byte. -/
def isCont (b : Nat) : Bool := 0x80 ≤ b && b ≤ 0xBF

/-- Valid second byte of a three-byte sequence led by b (excludes overlong
encodings and surrogate code points). -/
def cont3ok (b b2 : Nat) : Bool :=
  if b = 0xE0 then 0xA0 ≤ b2 && b2 ≤ 0xBF
  else if b = 0xED then 0x80 ≤ b2 && b2 ≤ 0x9F
  else isCont b2

/-- Valid second byte of a four-byte sequence led by b (excludes overlong
encodings and code points above U+10FFFF). -/
def cont4ok (b b2 : Nat) : Bool :=
  if b = 0xF0 then 0x90 ≤ b2 && b2 ≤ 0xBF
  else if b = 0xF4 then 0x80 ≤ b2 && b2 ≤ 0x8F
  else isCont b2

/-- The decode step of new TextDecoder().decode: UTF-8 decoding that never
fails, emitting U+FFFD for each maximal invalid subpart and resuming at
the offending byte, as the WHATWG encoding standard prescribes. -/
def utf8DecodeReplace : List Nat → List Char
  | [] => []
  | b :: rest =>
    if b ≤ 0x7F then Char.ofNat b :: utf8DecodeReplace rest
    else if b ≤ 0xC1 then repl :: utf8DecodeReplace rest
    else if b ≤ 0xDF then
      match rest with
      | [] => [repl]
      | b2 :: rest2 =>
        if isCont b2 then
          Char.ofNat ((b - 0xC0) * 0x40 + (b2 - 0x80)) :: utf8DecodeReplace rest2
        else repl :: utf8DecodeReplace (b2 :: rest2)
    else if b ≤ 0xEF then
      match rest with
      | [] => [repl]
      | b2 :: rest2 =>
        if cont3ok b b2 then
          match rest2 with
          | [] => [repl]
          | b3 :: rest3 =>
            if isCont b3 then
              Char.ofNat ((b - 0xE0) * 0x1000 + (b2 - 0x80) * 0x40 + (b3 - 0x80)) ::
                utf8DecodeReplace rest3
            else repl :: utf8DecodeReplace (b3 :: rest3)
        else repl :: utf8DecodeReplace (b2 :: rest2)
    else if b ≤ 0xF4 then
      match rest with
      | [] => [repl]
      | b2 :: rest2 =>
        if cont4ok b b2 then
          match rest2 with
          | [] => [repl]
          | b3 :: rest3 =>
            if isCont b3 then
              match rest3 with
              | [] => [repl]
              | b4 :: rest4 =>
                if isCont b4 then
                  Char.ofNat ((b - 0xF0) * 0x40000 + (b2 - 0x80) * 0x1000 +
                      (b3 - 0x80) * 0x40 + (b4 - 0x80)) :: utf8DecodeReplace rest4
                else repl :: utf8DecodeReplace (b4 :: rest4)
            else repl :: utf8DecodeReplace (b3 :: rest3)
        else repl :: utf8DecodeReplace (b2 :: rest2)
    else repl :: utf8DecodeReplace rest

/-- UTF-8 encoding of one character, used to state theorems about the bytes
a peer sends for a given text. -/
def utf8EncodeChar (c : Char) : List Nat :=
  let n := c.toNat
  if n ≤ 0x7F then [n]
  else if n ≤ 0x7FF then [0xC0 + n / 0x40, 0x80 + n % 0x40]
  else if n ≤ 0xFFFF then
    [0xE0 + n / 0x1000, 0x80 + n / 0x40 % 0x40, 0x80 + n % 0x40]
  else
    [0xF0 + n / 0x40000, 0x80 + n / 0x1000 % 0x40, 0x80 + n / 0x40 % 0x40, 0x80 + n % 0x40]

def utf8Encode (s : String) : List Nat :=
  s.data.foldr (fun c acc => utf8EncodeChar c ++ acc) []

/-- The Result type of utility.ts: success true with a value, or success
false with an error. -/
inductive Result (α : Type) (ε : Type) where
  | ok (value : α)
  | err (error : ε)

/-- parseMessage of message.ts: decode the byte slice with
new TextDecoder().decode (which never fails) and run JSON.parse inside
try/catch, so the function always returns a Result and never raises. -/
def parseMessage (bytes : List Nat) : Result Json String :=
  match jsonParse (String.mk (utf8DecodeReplace bytes)) with
  | some v => .ok v
  | none => .err "Message object is not valid JSON"

/-- typeof x === "string" on an optional property read (an absent property
reads as undefined, whose typeof is "undefined"). -/
def isStrOpt : Option Json → Bool
  | some (.str _) => true
  | _ => false

def isStrJson : Json → Bool
  | .str _ => true
  | _ => false

/-- The validators record of convertMessage in message.ts: the per-type
field-shape predicate for each of the 11 message types, and no entry for
any other key. Each lambda transcribes the corresponding line of the
source record. -/
def validators (t : String) : Option (List (String × Json) → Bool) :=
  match t with
  | "hello" => some (fun m => isStrOpt (objGet m "version") && isStrOpt (objGet m "agent"))
  | "error" => some (fun m => isStrOpt (objGet m "name") && isStrOpt (objGet m "description"))
  | "getpeers" => some (fun m => m.length == 1)
  | "getmempool" => some (fun m => m.length == 1)
  | "getchaintip" => some (fun m => m.length == 1)
  | "peers" => some (fun m =>
      match objGet m "peers" with
      | some (.arr xs) => xs.all isStrJson
      | _ => false)
  | "getobject" => some (fun m => isStrOpt (objGet m "objectid"))
  | "ihaveobject" => some (fun m => isStrOpt (objGet m "objectid"))
  | "object" => some (fun m =>
      match objGet m "object" with
      | some (.obj _) => true
      | some (.arr _) => true
      | _ => false)
  | "mempool" => some (fun m =>
      match objGet m "txids" with
      | some (.arr xs) => xs.all isStrJson
      | _ => false)
  | "chaintip" => some (fun m => isStrOpt (objGet m "blockid"))
  | _ => none

/-- What a property read on the validators object literal can produce:
an own validator entry, the inherited Object constructor, the inherited
Object.prototype.toString (which called with an undefined this value
returns the truthy string [object Undefined] without throwing), an
inherited method that begins by coercing its undefined this value and so
throws a TypeError, or the non-callable Object.prototype itself. -/
inductive PropVal where
  | validator (f : List (String × Json) → Bool)
  | objectCtor
  | objToString
  | thisSensitive
  | protoGetter

/-- Function-valued members of Object.prototype whose call with an
undefined this binding throws a TypeError: each of these begins by
applying ToObject to its this value (or, for toLocaleString, by reading a
property of it), which throws on undefined. Object.prototype.toString is
not among them: it tests its this value for undefined first and returns a
tag string. -/
def protoMethods : List String :=
  ["hasOwnProperty", "isPrototypeOf", "propertyIsEnumerable", "toLocaleString",
   "valueOf", "__defineGetter__", "__defineSetter__",
   "__lookupGetter__", "__lookupSetter__"]

/-- The property read validators[type]: an own entry when the key is one of
the 11 message types, otherwise the lookup falls through to the inherited
members of Object.prototype (the validators record is a plain object
literal); any other key reads as undefined. -/
def validatorsRead (t : String) : Option PropVal :=
  match validators t with
  | some f => some (.validator f)
  | none =>
    if t = "constructor" then some .objectCtor
    else if t = "toString" then some .objToString
    else if t ∈ protoMethods then some .thisSensitive
    else if t = "__proto__" then some .protoGetter
    else none

/-- Decimal digits of the fractional part of a rational, fuel-bounded. -/
def fracDigitsAux : Nat → Nat → Nat → List Char
  | 0, _, _ => []
  | _ + 1, 0, _ => []
  | fuel + 1, r, d =>
    let r10 := r * 10
    Char.ofNat (48 + r10 / d % 10) :: fracDigitsAux fuel (r10 % d) d

/-- JS ToString of a number, for the numbers this protocol can carry:
integers print as decimal integers, terminating decimals print with a
decimal point. -/
def jsNumberToString (q : Rat) : String :=
  let sgn := if q.num < 0 then "-" else ""
  let n := q.num.natAbs
  if q.den = 1 then sgn ++ toString n
  else sgn ++ toString (n / q.den) ++ "." ++ String.mk (fracDigitsAux 64 (n % q.den) q.den)

/-- JS Array.prototype.join with separator comma, as invoked by ToString on
an array: null prints as the empty string, nested arrays join recursively,
plain objects print as [object Object]. -/
def jsJoinElem : Json → String
  | .null => ""
  | .bool true => "true"
  | .bool false => "false"
  | .num q => jsNumberToString q
  | .str s => s
  | .obj _ => "[object Object]"
  | .arr xs => String.intercalate "," (xs.attach.map (fun x => jsJoinElem x.1))
decreasing_by
  have := List.sizeOf_lt_of_mem x.2
  simp only [Json.arr.sizeOf_spec]
  omega

/-- JS ToPropertyKey of a JSON value used as an index: strings index
directly, every other value is coerced through ToString. -/
def jsPropKey : Json → String
  | .str s => s
  | .bool true => "true"
  | .bool false => "false"
  | .null => "null"
  | .num q => jsNumberToString q
  | .obj _ => "[object Object]"
  | .arr xs => jsJoinElem (.arr xs)

/-- Outcome of a call to convertMessage: a returned Result, or a TypeError
escaping the function. -/
inductive ConvertOutcome where
  | returned (r : Result (List (String × Json)) String)
  | thrown

/-- convertMessage of message.ts on a JSON object: fail when the type key
is absent; otherwise read validators[type] and, when the read value is
truthy and the call validator(msg) is truthy, return the object as a
success. The property read follows JavaScript semantics on the object
literal, including the fallthrough to Object.prototype, and the call
validator(msg) has an undefined this binding. -/
def convertMessage (m : List (String × Json)) : ConvertOutcome :=
  match objGet m "type" with
  | none => .returned (.err "Message JSON is not in valid format")
  | some tv =>
    match validatorsRead (jsPropKey tv) with
    | some (.validator f) =>
      if f m then .returned (.ok m)
      else .returned (.err "Message JSON is not in valid format")
    | some .objectCtor => .returned (.ok m)
    | some .objToString => .returned (.ok m)
    | some .thisSensitive => .thrown
    | some .protoGetter => .thrown
    | none => .returned (.err "Message JSON is not in valid format")

/-- The 12 error code strings of the MessageError type of message.ts. -/
def errorCodes : List String :=
  ["INTERNAL_ERROR", "INVALID_FORMAT", "UNKNOWN_OBJECT", "UNFINDABLE_OBJECT",
   "INVALID_HANDSHAKE", "INVALID_TX_OUTPOINT", "INVALID_TX_SIGNATURE",
   "INVALID_TX_CONSERVATION", "INVALID_BLOCK_COINBASE", "INVALID_BLOCK_TIMESTAMP",
   "INVALID_BLOCK_POW", "INVALID_GENESIS"]

/-- JSON string escaping shared by JSON.stringify and RFC 8785
canonicalization: quote, backslash and the control characters. -/
def jsonEscapeChar (c : Char) : String :=
  if c = '"' then "\\\""
  else if c = '\\' then "\\\\"
  else if c = Char.ofNat 8 then "\\b"
  else if c = '\t' then "\\t"
  else if c = '\n' then "\\n"
  else if c = Char.ofNat 12 then "\\f"
  else if c = '\r' then "\\r"
  else if c.toNat < 0x20 then
    "\\u00" ++ String.mk [Char.ofNat (48 + c.toNat / 16),
      (if c.toNat % 16 < 10 then Char.ofNat (48 + c.toNat % 16)
       else Char.ofNat (87 + c.toNat % 16))]
  else String.mk [c]

def jsonEscape (s : String) : String :=
  s.data.foldr (fun c acc => jsonEscapeChar c ++ acc) ""

/-- Serialization of a string as a JSON string literal. -/
def jsonQuote (s : String) : String := "\"" ++ jsonEscape s ++ "\""

/-- canonicalizeMessage of message.ts: it passes its string argument to the
canonicalize function of json-canonicalize, which serializes the given
value; a string value serializes to its quoted, escaped JSON form. -/
def canonicalizeMessage (msg : String) : String := jsonQuote msg

/-- The validTypes list of the isValidMessageType helper in the connection
handler. -/
def validTypes : List String := ["connect", "disconnect", "message"]

/-- isValidMessageType of the connection handler: the value is truthy, is
an object, has a type property, and validTypes.includes that property
(strict equality, so only a string member of the list passes). -/
def isValidMessageType : Json → Bool
  | .obj kvs =>
    match objGet kvs "type" with
    | some (.str s) => validTypes.contains s
    | _ => false
  | _ => false

/-- The JSON value JSON.stringify serializes inside sendError: an object
literal with the fields type, code and message, in that insertion order. -/
def sendErrorFields (code msg : String) : List (String × Json) :=
  [("type", Json.str "error"), ("code", Json.str code), ("message", Json.str msg)]

/-- The text sendError writes to the connection:
JSON.stringify of the object with fields type, code and message. -/
def sendError (code msg : String) : String :=
  "\x7b\"type\":\"error\",\"code\":" ++ jsonQuote code ++
    ",\"message\":" ++ jsonQuote msg ++ "\x7d"

/-- What one iteration of the read loop does with the bytes the read
delivered: reply with an error, or reach the handling point of a message
that passed isValidMessageType. In either case the loop continues with
the next read; no branch of the loop body closes the connection. -/
inductive ReadOutcome where
  | errorReply (code description : String)
  | handled (value : Json)

/-- The body of the while loop of handleConnection on the bytes of one
read: parseMessage on the read bytes, sendError INVALID_FORMAT on parse
failure, sendError INVALID_FORMAT on a value isValidMessageType rejects,
otherwise the message reaches the handling point. -/
def readStep (chunk : List Nat) : ReadOutcome :=
  match parseMessage chunk with
  | .err e => .errorReply "INVALID_FORMAT" e
  | .ok v =>
    if isValidMessageType v then .handled v
    else .errorReply "INVALID_FORMAT" "Invalid message type"

/-- The fixed receive buffer size of handleConnection. -/
def readBufferSize : Nat := 1024

/-- The effect of conn.read on the fixed buffer: the delivered bytes
overwrite the front of the buffer, earlier contents beyond them remain. -/
def writeIntoBuffer (buf chunk : List Nat) : List Nat :=
  chunk ++ buf.drop chunk.length

/-- buffer.subarray(0, bytesRead). -/
def bufferSubarray (buf : List Nat) (n : Nat) : List Nat := buf.take n

/-- The successive arguments handleConnection passes to parseMessage over a
connection that delivers the given reads: for each read, the bytes written
into the fixed buffer are sliced at the byte count of that read alone. -/
def loopParserInputs : List Nat → List (List Nat) → List (List Nat)
  | _, [] => []
  | buf, chunk :: rest =>
    let buf2 := writeIntoBuffer buf chunk
    bufferSubarray buf2 chunk.length :: loopParserInputs buf2 rest

/-- The read loop over a whole connection: the outcome of each iteration
on the parser input of that iteration. -/
def runConnection (reads : List (List Nat)) : List ReadOutcome :=
  (loopParserInputs (List.replicate readBufferSize 0) reads).map readStep

/-- With a buffer at least as long as the buffer size, the loop passes each
read to the parser unchanged: the slice of the freshly overwritten buffer
at the byte count of the read is the read itself. -/
theorem loopParserInputs_id (reads : List (List Nat)) :
    ∀ buf : List Nat, readBufferSize ≤ buf.length →
    (∀ c ∈ reads, c.length ≤ readBufferSize) →
    loopParserInputs buf reads = reads := by
  induction reads with
  | nil => intro buf _ _; rfl
  | cons c rest ih =>
    intro buf hb h
    have hc : c.length ≤ readBufferSize := h c (List.mem_cons_self c rest)
    have hlen : readBufferSize ≤ (writeIntoBuffer buf c).length := by
      simp only [writeIntoBuffer, List.length_append, List.length_drop]
      omega
    have hslice : bufferSubarray (writeIntoBuffer buf c) c.length = c := by
      simp only [bufferSubarray, writeIntoBuffer, List.take_left]
    simp only [loopParserInputs, hslice]
    exact congrArg (c :: ·) (ih (writeIntoBuffer buf c) hlen
      (fun d hd => h d (List.mem_cons_of_mem c hd)))

/-- C10: each invocation of parseMessage in the read loop receives exactly
the bytes of a single conn.read into the fixed 1024-byte buffer, never
more than 1024 bytes and with no accumulation across reads. -/
theorem parser_input_is_single_read (reads : List (List Nat))
    (h : ∀ c ∈ reads, c.length ≤ readBufferSize) :
    loopParserInputs (List.replicate readBufferSize 0) reads = reads ∧
    ∀ inp ∈ loopParserInputs (List.replicate readBufferSize 0) reads,
      inp.length ≤ readBufferSize := by
  have he := loopParserInputs_id reads (List.replicate readBufferSize 0) (by simp) h
  exact ⟨he, by rw [he]; exact h⟩

/-- Witness for C10: a JSON message split across two reads is handed to the
parser as two separate inputs, the two read fragments themselves. -/
theorem parser_input_is_single_read_witness :
    loopParserInputs (List.replicate readBufferSize 0)
        [[123], [34, 116, 34, 58, 49, 125]] = [[123], [34, 116, 34, 58, 49, 125]] :=
  (parser_input_is_single_read [[123], [34, 116, 34, 58, 49, 125]] (by decide)).1

/-- C9: the read loop does not frame messages at newline bytes. A single
read containing two complete newline-terminated frames is passed to the
parser whole; JSON.parse rejects the concatenation as trailing garbage and
the loop replies INVALID_FORMAT instead of processing two messages. -/
theorem frames_not_split_at_newline :
    readStep (utf8Encode
        "\x7b\"type\":\"getpeers\"\x7d\n\x7b\"type\":\"getpeers\"\x7d\n") =
      .errorReply "INVALID_FORMAT" "Message object is not valid JSON" := rfl

/-- C1: sendError serializes the fields type, code and message; the wire
text carries no name and no description field, and the serialized object
is rejected by the error variant predicate of the message validator. -/
theorem sendError_uses_code_and_message_fields :
    sendError "INVALID_FORMAT" "Invalid message type" =
      "\x7b\"type\":\"error\",\"code\":\"INVALID_FORMAT\",\"message\":\"Invalid message type\"\x7d"
    ∧ objGet (sendErrorFields "INVALID_FORMAT" "Invalid message type") "name" = none
    ∧ objGet (sendErrorFields "INVALID_FORMAT" "Invalid message type") "description" = none
    ∧ convertMessage (sendErrorFields "INVALID_FORMAT" "Invalid message type") =
        .returned (.err "Message JSON is not in valid format") :=
  ⟨rfl, rfl, rfl, rfl⟩

/-- C2: the read loop validates against the placeholder list of
isValidMessageType, not against the 11-entry registry of message.ts. The
hello type is in the registry but not in validTypes, so the hello frame of
the end-to-end scenario is answered with an INVALID_FORMAT error instead
of being accepted. -/
theorem hello_frame_rejected_by_read_loop :
    (validators "hello").isSome = true
    ∧ validTypes.contains "hello" = false
    ∧ readStep (utf8Encode
        "\x7b\"type\":\"hello\",\"version\":\"0.10.0\",\"agent\":\"test\"\x7d\n") =
      .errorReply "INVALID_FORMAT" "Invalid message type" :=
  ⟨rfl, rfl, rfl⟩

/-- C3: the read loop has no handshake gate. A first getpeers frame is
answered with INVALID_FORMAT, not INVALID_HANDSHAKE, and the loop
continues; a first frame of type connect reaches the message handling
point without any hello having been accepted. -/
theorem no_handshake_gate :
    readStep (utf8Encode "\x7b\"type\":\"getpeers\"\x7d\n") =
      .errorReply "INVALID_FORMAT" "Invalid message type"
    ∧ readStep (utf8Encode "\x7b\"type\":\"connect\"\x7d\n") =
      .handled (Json.obj [("type", Json.str "connect")]) :=
  ⟨rfl, rfl⟩

/-- C4: the validators record has no own entry for constructor, toString or
hasOwnProperty, yet the property read falls through to Object.prototype:
objects of type constructor and of type toString are returned as
successful Messages (Object applied to the object returns the object, and
Object.prototype.toString with an undefined this returns the truthy tag
string), while an object of type hasOwnProperty makes the call
validator(msg) throw a TypeError. -/
theorem convertMessage_prototype_fallthrough :
    validators "constructor" = none
    ∧ validators "toString" = none
    ∧ validators "hasOwnProperty" = none
    ∧ convertMessage [("type", Json.str "constructor")] =
        .returned (.ok [("type", Json.str "constructor")])
    ∧ convertMessage [("type", Json.str "toString")] =
        .returned (.ok [("type", Json.str "toString")])
    ∧ convertMessage [("type", Json.str "hasOwnProperty")] = .thrown :=
  ⟨rfl, rfl, rfl, rfl, rfl, rfl⟩

/-- Counterexample for C5: a hello object with an extraneous field beyond
the declared ones is accepted by convertMessage. -/
theorem hello_extra_field_accepted :
    convertMessage [("type", Json.str "hello"), ("version", Json.str "0.10.0"),
        ("agent", Json.str "test"), ("extra", Json.num 1)] =
      .returned (.ok [("type", Json.str "hello"), ("version", Json.str "0.10.0"),
        ("agent", Json.str "test"), ("extra", Json.num 1)]) := rfl

/-- When the type field names a registered variant, convertMessage succeeds
exactly when that variant predicate accepts the object. -/
theorem convertMessage_ok_iff (kvs : List (String × Json)) (t : String)
    (f : List (String × Json) → Bool)
    (h : objGet kvs "type" = some (Json.str t)) (hf : validators t = some f) :
    convertMessage kvs = .returned (.ok kvs) ↔ f kvs = true := by
  have hr : validatorsRead (jsPropKey (Json.str t)) = some (.validator f) := by
    simp [validatorsRead, jsPropKey, hf]
  simp only [convertMessage, h, hr]
  by_cases hfk : f kvs = true <;> simp [hfk]

/-- C5 amended: convertMessage checks only the declared fields of each of
the 11 variants. For every variant the success condition constrains no key
beyond the declared ones, except for getpeers, getmempool and getchaintip,
which require the type key to be the only key; a missing declared field
fails its shape check, and every other variant accepts objects carrying
extraneous fields. -/
theorem convertMessage_declared_shapes (kvs : List (String × Json)) :
    (objGet kvs "type" = some (Json.str "hello") →
      (convertMessage kvs = .returned (.ok kvs) ↔
        isStrOpt (objGet kvs "version") = true ∧ isStrOpt (objGet kvs "agent") = true)) ∧
    (objGet kvs "type" = some (Json.str "error") →
      (convertMessage kvs = .returned (.ok kvs) ↔
        isStrOpt (objGet kvs "name") = true ∧ isStrOpt (objGet kvs "description") = true)) ∧
    (objGet kvs "type" = some (Json.str "getpeers") →
      (convertMessage kvs = .returned (.ok kvs) ↔ kvs.length = 1)) ∧
    (objGet kvs "type" = some (Json.str "getmempool") →
      (convertMessage kvs = .returned (.ok kvs) ↔ kvs.length = 1)) ∧
    (objGet kvs "type" = some (Json.str "getchaintip") →
      (convertMessage kvs = .returned (.ok kvs) ↔ kvs.length = 1)) ∧
    (objGet kvs "type" = some (Json.str "peers") →
      (convertMessage kvs = .returned (.ok kvs) ↔
        ∃ xs, objGet kvs "peers" = some (Json.arr xs) ∧ xs.all isStrJson = true)) ∧
    (objGet kvs "type" = some (Json.str "getobject") →
      (convertMessage kvs = .returned (.ok kvs) ↔
        isStrOpt (objGet kvs "objectid") = true)) ∧
    (objGet kvs "type" = some (Json.str "ihaveobject") →
      (convertMessage kvs = .returned (.ok kvs) ↔
        isStrOpt (objGet kvs "objectid") = true)) ∧
    (objGet kvs "type" = some (Json.str "object") →
      (convertMessage kvs = .returned (.ok kvs) ↔
        ((∃ fs, objGet kvs "object" = some (Json.obj fs)) ∨
         (∃ xs, objGet kvs "object" = some (Json.arr xs))))) ∧
    (objGet kvs "type" = some (Json.str "mempool") →
      (convertMessage kvs = .returned (.ok kvs) ↔
        ∃ xs, objGet kvs "txids" = some (Json.arr xs) ∧ xs.all isStrJson = true)) ∧
    (objGet kvs "type" = some (Json.str "chaintip") →
      (convertMessage kvs = .returned (.ok kvs) ↔
        isStrOpt (objGet kvs "blockid") = true)) := by
  refine ⟨?_, ?_, ?_, ?_, ?_, ?_, ?_, ?_, ?_, ?_, ?_⟩ <;> intro h
  · rw [convertMessage_ok_iff kvs "hello" _ h rfl]
    simp [Bool.and_eq_true]
  · rw [convertMessage_ok_iff kvs "error" _ h rfl]
    simp [Bool.and_eq_true]
  · rw [convertMessage_ok_iff kvs "getpeers" _ h rfl]
    simp
  · rw [convertMessage_ok_iff kvs "getmempool" _ h rfl]
    simp
  · rw [convertMessage_ok_iff kvs "getchaintip" _ h rfl]
    simp
  · rw [convertMessage_ok_iff kvs "peers" _ h rfl]
    cases hp : objGet kvs "peers" with
    | none => simp [hp]
    | some v => cases v <;> simp [hp]
  · rw [convertMessage_ok_iff kvs "getobject" _ h rfl]
  · rw [convertMessage_ok_iff kvs "ihaveobject" _ h rfl]
  · rw [convertMessage_ok_iff kvs "object" _ h rfl]
    cases ho : objGet kvs "object" with
    | none => simp [ho]
    | some v => cases v <;> simp [ho]
  · rw [convertMessage_ok_iff kvs "mempool" _ h rfl]
    cases ht : objGet kvs "txids" with
    | none => simp [ht]
    | some v => cases v <;> simp [ht]
  · rw [convertMessage_ok_iff kvs "chaintip" _ h rfl]

/-- Witness for C5: the amended characterization applied to a bare getpeers
object. -/
theorem convertMessage_declared_shapes_witness :
    convertMessage [("type", Json.str "getpeers")] =
      .returned (.ok [("type", Json.str "getpeers")]) :=
  ((convertMessage_declared_shapes [("type", Json.str "getpeers")]).2.2.1 rfl).mpr rfl

/-- Counterexample for C6: an error object whose name is not one of the 12
error code strings is nonetheless accepted by convertMessage. -/
theorem error_name_outside_taxonomy_accepted :
    "BOGUS" ∉ errorCodes
    ∧ convertMessage [("type", Json.str "error"), ("name", Json.str "BOGUS"),
        ("description", Json.str "x")] =
      .returned (.ok [("type", Json.str "error"), ("name", Json.str "BOGUS"),
        ("description", Json.str "x")]) :=
  ⟨by decide, rfl⟩

/-- C6 amended: an error object is accepted exactly when name and
description are strings; membership of name in the 12 error codes is not
checked at runtime (the code list exists only in the erased type layer). -/
theorem convertMessage_error_any_name (kvs : List (String × Json))
    (h : objGet kvs "type" = some (Json.str "error")) :
    convertMessage kvs = .returned (.ok kvs) ↔
      isStrOpt (objGet kvs "name") = true ∧ isStrOpt (objGet kvs "description") = true := by
  rw [convertMessage_ok_iff kvs "error" _ h rfl]
  simp [Bool.and_eq_true]

/-- Witness for C6: the characterization applied to an error object whose
name lies outside the taxonomy. -/
theorem convertMessage_error_any_name_witness :
    convertMessage [("type", Json.str "error"), ("name", Json.str "WHATEVER"),
        ("description", Json.str "d")] =
      .returned (.ok [("type", Json.str "error"), ("name", Json.str "WHATEVER"),
        ("description", Json.str "d")]) :=
  (convertMessage_error_any_name [("type", Json.str "error"),
      ("name", Json.str "WHATEVER"), ("description", Json.str "d")] rfl).mpr ⟨rfl, rfl⟩

/-- Counterexample for C7: a successful parseMessage can return a bare
number (the input 5), and invalid UTF-8 does not yield a failure: the
byte 0xFF inside quotes is decoded to U+FFFD and parses as a string. -/
theorem parse_success_can_be_primitive :
    parseMessage (utf8Encode "5") = .ok (Json.num 5)
    ∧ parseMessage [0x22, 0xFF, 0x22] = .ok (Json.str "�") :=
  ⟨rfl, rfl⟩

/-- C7 amended: parseMessage never raises and always returns a Result; its
only failure mode is the fixed invalid-JSON description, raised exactly on
input whose replacement-decoded text is not one JSON document. A success
may carry any JSON value, not only an object or array. -/
theorem parseMessage_total (bytes : List Nat) :
    (∃ v, parseMessage bytes = .ok v)
    ∨ parseMessage bytes = .err "Message object is not valid JSON" := by
  unfold parseMessage
  cases jsonParse (String.mk (utf8DecodeReplace bytes)) with
  | none => exact Or.inr rfl
  | some v => exact Or.inl ⟨v, rfl⟩

/-- C8: canonicalizeMessage serializes its string argument instead of a
parsed JSON value, so a second application re-quotes and re-escapes the
first output and the bytes differ: the function is not idempotent. -/
theorem canonicalize_not_idempotent :
    canonicalizeMessage "a" = "\"a\""
    ∧ canonicalizeMessage (canonicalizeMessage "a") = "\"\\\"a\\\"\""
    ∧ canonicalizeMessage (canonicalizeMessage "a") ≠ canonicalizeMessage "a" :=
  ⟨rfl, rfl, by decide⟩

end Marabu
